import Mathlib

/-!
Verification of the go-mongo driver (BSON encoder, struct field-mapping
compiler, object-id generation, connection pool) against its
natural-language specification.

The Go source is shallowly embedded:
- bytes are natural numbers, written modulo 256 at every write point;
- the growable encode buffer is a list of bytes; writes append, and
  document framing backfills the 4-byte length placeholder in place;
- Go panics are modelled by an explicit failure value threaded through
  the encoders (the encoder's own abort/handleAbort discipline uses a
  distinguished panic payload, mirrored here by two constructors);
- recursion over arbitrarily nested Go values is bounded by an explicit
  fuel parameter (the Go encoder genuinely recurses without bound and
  its documentation warns that cyclic values recurse forever); running
  out of fuel is a separate outcome that no theorem below treats as a
  normal result.

Go strings in this development are assumed ASCII, so a string's bytes
are the code points of its characters; every concrete string used in a
statement below is ASCII.
-/

namespace GoMongo

/-! ## Bytes, buffers and little-endian writes

The buffer type itself lives in a file of the repository that is not
part of the provided sources; its operations are modelled from the
spec: the output buffer is growable, writes append, multi-byte integers
are little-endian, and document framing reserves a 4-byte length
placeholder that is backfilled afterwards. -/

/-- A Go byte sequence: each entry is a byte value below 256. -/
abbrev Buffer := List Nat

/-- Little-endian bytes of a 32-bit value (inputs are reduced mod 2^32 by
taking each byte mod 256). -/
def u32le (n : Nat) : List Nat :=
  [n % 256, n / 2 ^ 8 % 256, n / 2 ^ 16 % 256, n / 2 ^ 24 % 256]

/-- Little-endian bytes of a 64-bit value. -/
def u64le (n : Nat) : List Nat :=
  [n % 256, n / 2 ^ 8 % 256, n / 2 ^ 16 % 256, n / 2 ^ 24 % 256,
   n / 2 ^ 32 % 256, n / 2 ^ 40 % 256, n / 2 ^ 48 % 256, n / 2 ^ 56 % 256]

/-- Bytes of an ASCII Go string. -/
def strB (s : String) : List Nat := s.data.map Char.toNat

/-- Modelled from the spec: buffer WriteByte appends one byte. -/
def writeByte (b : Buffer) (x : Nat) : Buffer := b ++ [x % 256]

/-- Modelled from the spec: buffer WriteCString appends the string's bytes
and a NUL terminator. -/
def writeCString (b : Buffer) (s : String) : Buffer := b ++ strB s ++ [0]

/-- Modelled from the spec: buffer WriteUint32 appends 4 little-endian bytes. -/
def writeUint32 (b : Buffer) (n : Nat) : Buffer := b ++ u32le n

/-- Modelled from the spec: buffer WriteUint64 appends 8 little-endian bytes. -/
def writeUint64 (b : Buffer) (n : Nat) : Buffer := b ++ u64le n

/-- Modelled from the spec: buffer Next(4), the length placeholder reserved by
beginDoc (contents are irrelevant until backfilled; zeros here). -/
def next4 (b : Buffer) : Buffer := b ++ [0, 0, 0, 0]

/-- Overwrite the bytes of a buffer at a given offset with a patch
(the in-place PutUint32 used by endDoc). -/
def patchAt (b : Buffer) (off : Nat) (p : List Nat) : Buffer :=
  b.take off ++ p ++ b.drop (off + p.length)

/-- endDoc: backfill the 4-byte length placeholder at the given offset with
the total span written since beginDoc. -/
def endDoc (b : Buffer) (off : Nat) : Buffer :=
  patchAt b off (u32le (b.length - off))

/-! ## Errors and panics of the encoder -/

/-- An error value returned by Encode: either the typed EncodeTypeError
carrying the offending Go type's name, or a plain errors.New message. -/
inductive EncErr where
  | typeError (typeName : String)
  | strError (msg : String)
deriving DecidableEq, Repr

/-- True exactly for the typed EncodeTypeError. -/
def EncErr.isType : EncErr → Bool
  | .typeError _ => true
  | .strError _ => false

/-- A failure escaping an encoder function: `abortP e` is panic(aborted{e})
raised by abort and caught by handleAbort; `otherP msg` is any other panic
value, which handleAbort re-throws; `fuelOut` is the model's recursion
bound, not a behaviour of the program. -/
inductive Fail where
  | abortP (e : EncErr)
  | otherP (msg : String)
  | fuelOut
deriving DecidableEq, Repr

abbrev EncRes := Except Fail Buffer

/-! ## BSON element kinds (the const block of the source) -/

def kindFloat : Nat := 0x1
def kindString : Nat := 0x2
def kindDocument : Nat := 0x3
def kindArray : Nat := 0x4
def kindBinary : Nat := 0x5
def kindObjectId : Nat := 0x7
def kindBool : Nat := 0x8
def kindDateTime : Nat := 0x9
def kindNull : Nat := 0xA
def kindRegexp : Nat := 0xB
def kindCode : Nat := 0xD
def kindSymbol : Nat := 0xE
def kindCodeWithScope : Nat := 0xF
def kindInt32 : Nat := 0x10
def kindTimestamp : Nat := 0x11
def kindInt64 : Nat := 0x12
def kindMinValue : Nat := 0xff
def kindMaxValue : Nat := 0x7f

/-! ## Struct types and the field-mapping compiler -/

/-- One field of a Go struct type: either a plain named field with its
bson tag, or an anonymous (embedded) struct member carrying the embedded
type's name and its own field list. An unexported field has
exported = false (PkgPath nonempty in the source). -/
inductive StructField where
  | plain (goName : String) (tag : String) (exported : Bool)
  | anon (typeName : String) (exported : Bool) (sub : List StructField)

/-- A Go struct type: its field list in declaration order. -/
abbrev StructType := List StructField

/-- The per-field descriptor fieldSpec: serialized name, field access path
(index), omit-if-empty flag. -/
structure FieldSpec where
  name : String
  index : List Nat
  omitEmpty : Bool
deriving DecidableEq, Repr

/-- The per-type descriptor structSpec: the name-keyed lookup map m (used by
the decoder), the ordered list l driving encoding, and the projection
document fields. The Go map m is modelled as an association list with
insert-replace semantics. -/
structure StructSpec where
  m : List (String × FieldSpec)
  l : List FieldSpec
  fields : List (String × Nat)
deriving DecidableEq, Repr

/-- Lookup in an association list (Go map read). -/
def lookupA {β : Type} : List (String × β) → String → Option β
  | [], _ => none
  | (k, v) :: rest, key => if k == key then some v else lookupA rest key

/-- Go map assignment m[k] = v: replace an existing binding or add one. -/
def mapInsert {β : Type} (m : List (String × β)) (k : String) (v : β) :
    List (String × β) :=
  if m.any (fun p => p.1 == k) then
    m.map (fun p => if p.1 == k then (k, v) else p)
  else m ++ [(k, v)]

/-- Go delete(m, k). -/
def mapDelete {β : Type} (m : List (String × β)) (k : String) :
    List (String × β) :=
  m.filter (fun p => p.1 != k)

/-- strings.Contains(tag, "/c"), on the tag's characters. -/
def hasSlashC : List Char → Bool
  | [] => false
  | '/' :: 'c' :: _ => true
  | _ :: rest => hasSlashC rest

/-- strings.Split(tag, ","), on the tag's characters; splitting the empty
string yields one empty part, as in Go. -/
def splitComma : List Char → List (List Char)
  | [] => [[]]
  | c :: rest =>
    let r := splitComma rest
    if c == ',' then [] :: r
    else
      match r with
      | [] => [[c]]
      | h :: t => (c :: h) :: t

/-- The flag loop of compileStructSpec: each option after the name is either
omitempty or an unknown flag, which panics (a plain error value, not the
abort wrapper). -/
def compileFlags (tname : String) (fs : FieldSpec) :
    List (List Char) → Except Fail FieldSpec
  | [] => .ok fs
  | s :: rest =>
    if s == "omitempty".data then
      compileFlags tname { fs with omitEmpty := true } rest
    else
      .error (.otherP ("bson: unknown field flag " ++ String.mk s ++ " for type " ++ tname))

/-- The tag handling of compileStructSpec for one plain field: reject "/c"
tags with a string panic, split the tag on commas, and unless the name part
is "-" apply the name override and parse the flags. Note the source keeps
going with the field's Go name when the name part is "-": the
exclusion that the surrounding documentation promises is absent. -/
def parseFieldTag (tname goName tag : String) : Except Fail FieldSpec :=
  if hasSlashC tag.data then
    .error (.otherP "use ,omitempty instead of /c in bson field tag")
  else
    let fs : FieldSpec := { name := goName, index := [], omitEmpty := false }
    let p := splitComma tag.data
    if 0 < p.length && (p.headD []) != "-".data then
      let fs :=
        if 0 < (p.headD []).length then { fs with name := String.mk (p.headD []) } else fs
      compileFlags tname fs p.tail
    else
      .ok fs

/-- compileStructSpec: depth-first traversal of a struct type and its
anonymous embedded members, threading the depth map, the access path index
and the accumulated spec. The Go for-loop over t.NumField() is the
recursion over flds with running position i; fuel bounds the embedding
depth. -/
def compileStructSpec : Nat → String → List StructField → Nat →
    List (String × Nat) → List Nat → StructSpec →
    Except Fail (List (String × Nat) × StructSpec)
  | 0, _, _, _, _, _, _ => .error .fuelOut
  | _ + 1, _, [], _, depth, _, ss => .ok (depth, ss)
  | fuel + 1, tname, f :: rest, i, depth, index, ss =>
    match f with
    | .anon subName exported sub =>
      if exported then
        match compileStructSpec fuel subName sub 0 depth (index ++ [i]) ss with
        | .error e => .error e
        | .ok (depth', ss') => compileStructSpec fuel tname rest (i + 1) depth' index ss'
      else
        compileStructSpec fuel tname rest (i + 1) depth index ss
    | .plain goName tag exported =>
      if exported then
        match parseFieldTag tname goName tag with
        | .error e => .error e
        | .ok fs =>
          let d := (lookupA depth fs.name).getD (2 ^ 30)
          if index.length = d then
            -- At same depth, remove from result.
            let ss' : StructSpec :=
              { ss with m := mapDelete ss.m fs.name,
                        l := ss.l.filter (fun g => fs.name != g.name) }
            compileStructSpec fuel tname rest (i + 1) depth index ss'
          else if index.length < d then
            let fs' := { fs with index := index ++ [i] }
            let depth' := mapInsert depth fs.name index.length
            let ss' : StructSpec :=
              { ss with m := mapInsert ss.m fs.name fs', l := ss.l ++ [fs'] }
            compileStructSpec fuel tname rest (i + 1) depth' index ss'
          else
            compileStructSpec fuel tname rest (i + 1) depth index ss
      else
        compileStructSpec fuel tname rest (i + 1) depth index ss

/-- structSpecForType: compile the spec for a type (memoization in the
process-wide cache is transparent to the result), then synthesize the
projection document: every non-identity name set to 1, and an explicit
identity exclusion when no field serializes as "_id". -/
def structSpecForType (fuel : Nat) (tname : String) (t : StructType) :
    Except Fail StructSpec :=
  match compileStructSpec fuel tname t 0 [] [] ⟨[], [], []⟩ with
  | .error e => .error e
  | .ok (_, ss) =>
    let hasId := ss.l.any (fun fs => fs.name == "_id")
    let fields :=
      (ss.l.filter (fun fs => fs.name != "_id")).map (fun fs => (fs.name, 1)) ++
        (if hasId then [] else [("_id", 0)])
    .ok { ss with fields := fields }

example :
    structSpecForType 9 "T" [.plain "F" "-" true] =
      .ok ⟨[("F", ⟨"F", [0], false⟩)], [⟨"F", [0], false⟩], [("F", 1), ("_id", 0)]⟩ := by
  rfl

example :
    structSpecForType 9 "T" [.plain "F" ",omitempty" true] =
      .ok ⟨[("F", ⟨"F", [0], true⟩)], [⟨"F", [0], true⟩], [("F", 1), ("_id", 0)]⟩ := by
  rfl

example :
    structSpecForType 9 "T" [.plain "F" "x,weird" true] =
      .error (.otherP "bson: unknown field flag weird for type T") := by
  rfl

/-! ## Go values

The value universe covers the Go types the claims exercise. Each
constructor records which source encoder the Go type dispatches to
(typeEncoder by type first, then kindEncoder by reflection kind). -/

inductive GoValue where
  | vBool (b : Bool)
  | vInt (i : Int)
  | vInt32 (i : Int)
  | vInt64 (i : Int)
  | vUint16 (u : Nat)
  | vUint (u : Nat)
  | vUint64 (u : Nat)
  | vString (s : String)
  | vTime (sec nsec : Int)
  | vPtr (p : Option GoValue)
  | vMapNil
  | vMap (entries : List (String × GoValue))
  | vStruct (tname : String) (t : StructType) (vals : List GoValue)
  | vUnsupported (typeName : String)

/-- The Go type string reflect reports for a value, used by
EncodeTypeError. -/
def goTypeName : GoValue → String
  | .vBool _ => "bool"
  | .vInt _ => "int"
  | .vInt32 _ => "int32"
  | .vInt64 _ => "int64"
  | .vUint16 _ => "uint16"
  | .vUint _ => "uint"
  | .vUint64 _ => "uint64"
  | .vString _ => "string"
  | .vTime _ _ => "time.Time"
  | .vPtr _ => "*interface \x7b\x7d"
  | .vMapNil => "map[string]interface \x7b\x7d"
  | .vMap _ => "map[string]interface \x7b\x7d"
  | .vStruct tname _ _ => tname
  | .vUnsupported tn => tn

/-- reflect.Value.FieldByIndex: navigate a struct value along an access
path; none models an invalid reflect.Value. -/
def fieldByIndex : GoValue → List Nat → Option GoValue
  | v, [] => some v
  | .vStruct _ _ vals, i :: rest =>
    match vals.get? i with
    | some w => fieldByIndex w rest
    | none => none
  | _, _ :: _ => none

/-! ## Scalar element encoders (bson_encode.go) -/

/-- defaultFieldSpec: the zero fieldSpec used for non-struct elements. -/
def defaultFieldSpec : FieldSpec := { name := "", index := [], omitEmpty := false }

/-- writeKindName: the element header, one kind byte then the name as a
C string. -/
def writeKindName (b : Buffer) (kind : Nat) (name : String) : Buffer :=
  writeCString (writeByte b kind) name

/-- Truncation of a Go signed value to uint32 (the uint32(i) conversion). -/
def intToU32 (i : Int) : Nat := (i.emod (2 ^ 32)).toNat

/-- Truncation of a Go signed value to uint64 (the uint64(i) conversion). -/
def intToU64 (i : Int) : Nat := (i.emod (2 ^ 64)).toNat

/-- encodeBool. -/
def encodeBool (name : String) (fs : FieldSpec) (bv : Bool) (b : Buffer) : Buffer :=
  if bv == false && fs.omitEmpty then b
  else writeByte (writeKindName b kindBool name) (if bv then 1 else 0)

/-- encodeInt (Go int): 32-bit kind iff the value fits int32, else 64-bit. -/
def encodeInt (name : String) (fs : FieldSpec) (i : Int) (b : Buffer) : Buffer :=
  if i == 0 && fs.omitEmpty then b
  else if -(2 ^ 31) ≤ i ∧ i ≤ 2 ^ 31 - 1 then
    writeUint32 (writeKindName b kindInt32 name) (intToU32 i)
  else
    writeUint64 (writeKindName b kindInt64 name) (intToU64 i)

/-- encodeInt32 (Go int8, int16, int32): always the 32-bit kind. -/
def encodeInt32 (name : String) (fs : FieldSpec) (i : Int) (b : Buffer) : Buffer :=
  if i == 0 && fs.omitEmpty then b
  else writeUint32 (writeKindName b kindInt32 name) (intToU32 i)

/-- encodeInt64 (Go int64 and Timestamp): always the given 64-bit kind. -/
def encodeInt64 (kind : Nat) (name : String) (fs : FieldSpec) (i : Int) (b : Buffer) : Buffer :=
  if i == 0 && fs.omitEmpty then b
  else writeUint64 (writeKindName b kind name) (intToU64 i)

/-- encodeUint16 (Go uint8, uint16): always the 32-bit kind. -/
def encodeUint16 (name : String) (fs : FieldSpec) (u : Nat) (b : Buffer) : Buffer :=
  if u == 0 && fs.omitEmpty then b
  else writeUint32 (writeKindName b kindInt32 name) (u % 2 ^ 32)

/-- encodeUint (Go uint, uint32): abort when int64(u) would be negative,
32-bit kind when the value is at most the signed 32-bit maximum, else
64-bit. -/
def encodeUint (name : String) (fs : FieldSpec) (u : Nat) (b : Buffer) : EncRes :=
  if u == 0 && fs.omitEmpty then .ok b
  else if 2 ^ 63 ≤ u then .error (.abortP (.strError "bson: uint value does not fit in int64"))
  else if u ≤ 2 ^ 31 - 1 then .ok (writeUint32 (writeKindName b kindInt32 name) (u % 2 ^ 32))
  else .ok (writeUint64 (writeKindName b kindInt64 name) (u % 2 ^ 64))

/-- encodeUint64 (Go uint64): abort when int64(u) would be negative, else
always the 64-bit kind. -/
def encodeUint64 (name : String) (fs : FieldSpec) (u : Nat) (b : Buffer) : EncRes :=
  if u == 0 && fs.omitEmpty then .ok b
  else if 2 ^ 63 ≤ u then .error (.abortP (.strError "bson: uint64 value does not fit in int64"))
  else .ok (writeUint64 (writeKindName b kindInt64 name) (u % 2 ^ 64))

/-- encodeString (with the String kind; Code and Symbol share this shape). -/
def encodeString (kind : Nat) (name : String) (fs : FieldSpec) (s : String) (b : Buffer) : Buffer :=
  if s == "" && fs.omitEmpty then b
  else writeCString (writeUint32 (writeKindName b kind name) ((strB s).length + 1)) s

/-- The Unix second of Go's zero time.Time (January 1, year 1 UTC). -/
def goZeroTimeSec : Int := -62135596800

/-- time.Time.IsZero on the (unix second, nanosecond) representation. -/
def timeIsZero (sec nsec : Int) : Bool := sec == goZeroTimeSec && nsec == 0

/-- msFromTime: Unix()*1e3 + Nanosecond()/1e6 (Go integer division). -/
def msFromTime (sec nsec : Int) : Int := sec * 1000 + nsec.tdiv 1000000

/-- encodeTime: skip the zero time under omit-if-empty, else a UTC datetime
element carrying milliseconds since the epoch. -/
def encodeTime (name : String) (fs : FieldSpec) (sec nsec : Int) (b : Buffer) : Buffer :=
  if timeIsZero sec nsec && fs.omitEmpty then b
  else writeUint64 (writeKindName b kindDateTime name) (intToU64 (msFromTime sec nsec))

/-! ## The document writers and the dispatcher -/

/-- One step of a document body loop: propagate an earlier failure, else
encode the next element into the accumulated buffer. -/
def encStep (encV : String → FieldSpec → Option GoValue → Buffer → EncRes)
    (acc : EncRes) (name : String) (fs : FieldSpec) (v : Option GoValue) : EncRes :=
  match acc with
  | .error e => .error e
  | .ok b => encV name fs v b

/-- The body of writeStruct's field loop: one mapped field, fetched by its
access path from the root value. -/
def structLoopStep (encV : String → FieldSpec → Option GoValue → Buffer → EncRes)
    (root : GoValue) (acc : EncRes) (fs : FieldSpec) : EncRes :=
  encStep encV acc fs.name fs (fieldByIndex root fs.index)

/-- writeStruct: frame a document, compile the type's field mapping, encode
every mapped field by its access path, terminate and backfill the length.
The element encoder is passed in to close the recursion. -/
def writeStructWith (fuel : Nat)
    (encV : String → FieldSpec → Option GoValue → Buffer → EncRes)
    (tname : String) (t : StructType) (vals : List GoValue) (b : Buffer) : EncRes :=
  let offset := b.length
  let b1 := next4 b
  match structSpecForType fuel tname t with
  | .error e => .error e
  | .ok ss =>
    match ss.l.foldl (structLoopStep encV (GoValue.vStruct tname t vals)) (.ok b1) with
    | .error e => .error e
    | .ok b2 => .ok (endDoc (writeByte b2 0) offset)

/-- The body of writeMap's key loop: skip the "_id" key when it was already
written up front, else encode the entry. -/
def mapLoopStep (encV : String → FieldSpec → Option GoValue → Buffer → EncRes)
    (skipId : Bool) (acc : EncRes) (kv : String × GoValue) : EncRes :=
  if skipId && kv.1 == "_id" then acc
  else encStep encV acc kv.1 defaultFieldSpec (some kv.2)

/-- The body of writeD's pair loop. -/
def dLoopStep (encV : String → FieldSpec → Option GoValue → Buffer → EncRes)
    (acc : EncRes) (kv : String × GoValue) : EncRes :=
  encStep encV acc kv.1 defaultFieldSpec (some kv.2)

/-- writeMap: nothing for a nil map; otherwise frame a document and, at the
top level only, write any "_id" entry first and skip it in the key loop.
Key type string is enforced by this model's map type. -/
def writeMapWith (encV : String → FieldSpec → Option GoValue → Buffer → EncRes)
    (topLevel : Bool) (m : Option (List (String × GoValue))) (b : Buffer) : EncRes :=
  match m with
  | none => .ok b
  | some es =>
    let offset := b.length
    let b1 := next4 b
    let idVal := match topLevel with
      | true => lookupA es "_id"
      | false => none
    let start : EncRes :=
      match idVal with
      | some w => encV "_id" defaultFieldSpec (some w) b1
      | none => .ok b1
    match es.foldl (mapLoopStep encV idVal.isSome) start with
    | .error e => .error e
    | .ok b2 => .ok (endDoc (writeByte b2 0) offset)

/-- writeD: frame a document and write the ordered pairs as given. -/
def writeDWith (encV : String → FieldSpec → Option GoValue → Buffer → EncRes)
    (d : List (String × GoValue)) (b : Buffer) : EncRes :=
  let offset := b.length
  let b1 := next4 b
  match d.foldl (dLoopStep encV) (.ok b1) with
  | .error e => .error e
  | .ok b2 => .ok (endDoc (writeByte b2 0) offset)

/-- encodeValue: skip invalid values, then dispatch on the value's type and
kind exactly as the typeEncoder/kindEncoder tables do; an unregistered
type aborts with the typed error. Fuel bounds nesting depth. -/
def encodeValue : Nat → String → FieldSpec → Option GoValue → Buffer → EncRes
  | 0, _, _, _, _ => .error .fuelOut
  | _ + 1, _, _, none, b => .ok b
  | fuel + 1, name, fs, some v, b =>
    match v with
    | .vBool bv => .ok (encodeBool name fs bv b)
    | .vInt i => .ok (encodeInt name fs i b)
    | .vInt32 i => .ok (encodeInt32 name fs i b)
    | .vInt64 i => .ok (encodeInt64 kindInt64 name fs i b)
    | .vUint16 u => .ok (encodeUint16 name fs u b)
    | .vUint u => encodeUint name fs u b
    | .vUint64 u => encodeUint64 name fs u b
    | .vString s => .ok (encodeString kindString name fs s b)
    | .vTime sec nsec => .ok (encodeTime name fs sec nsec b)
    | .vPtr p =>
      match p with
      | none => .ok b
      | some w => encodeValue fuel name defaultFieldSpec (some w) b
    | .vMapNil => .ok b
    | .vMap es => writeMapWith (encodeValue fuel) false (some es) (writeKindName b kindDocument name)
    | .vStruct tn t vs => writeStructWith fuel (encodeValue fuel) tn t vs (writeKindName b kindDocument name)
    | .vUnsupported tn => .error (.abortP (.typeError tn))

/-! ## The top-level Encode -/

/-- The observable outcome of an Encode call: the Go pair (result, err)
with result nil whenever never assigned, a re-thrown panic, or the model's
fuel bound. -/
inductive EncodeResult where
  | ret (result : Option Buffer) (err : Option EncErr)
  | panicked (msg : String)
  | fuelOut
deriving DecidableEq, Repr

/-- Encode: dereference one pointer/interface level, write a struct or a
top-level map (a time.Time lands in the struct branch, whose unexported
fields compile to an empty mapping), return the typed error for any other
top-level type, and translate escaping failures exactly as handleAbort
does: an aborted panic becomes the (nil, err) return, any other panic is
re-thrown. -/
def Encode (fuel : Nat) (buf : Buffer) (doc : Option GoValue) : EncodeResult :=
  match doc with
  | none => .panicked "reflect: call of reflect.Value.Type on zero Value"
  | some doc0 =>
    let v : Option GoValue :=
      match doc0 with
      | .vPtr p => p
      | w => some w
    match v with
    | none => .panicked "reflect: call of reflect.Value.Type on zero Value"
    | some w =>
      let inner : EncRes :=
        match w with
        | .vStruct tn t vs => writeStructWith fuel (encodeValue fuel) tn t vs buf
        | .vTime _ _ => writeStructWith fuel (encodeValue fuel) "Time" [] [] buf
        | .vMap es => writeMapWith (encodeValue fuel) true (some es) buf
        | .vMapNil => writeMapWith (encodeValue fuel) true none buf
        | _ => .error (.abortP (.typeError (goTypeName w)))
      match inner with
      | .ok b => .ret (some b) none
      | .error (.abortP e) => .ret none (some e)
      | .error (.otherP msg) => .panicked msg
      | .error .fuelOut => .fuelOut

example :
    Encode 9 [] (some (.vStruct "T" [.plain "F" "-" true] [.vInt 7])) =
      .ret (some [12, 0, 0, 0, 16, 70, 0, 7, 0, 0, 0, 0]) none := by
  rfl

example :
    Encode 9 [] (some (.vMap [("x", .vUint64 18446744073709551615)])) =
      .ret none (some (.strError "bson: uint64 value does not fit in int64")) := by
  rfl

example :
    Encode 9 [] (some (.vStruct "T" [.plain "F" "x,weird" true] [.vInt 7])) =
      .panicked "bson: unknown field flag weird for type T" := by
  rfl

/-! ## Object ids

newObjectId builds a 12-byte identifier from the creation time's Unix
second (an int64; the >> shifts are arithmetic, i.e. floor division, and
byte() keeps the low 8 bits) and a 64-bit counter value. -/

/-- newObjectId: 4 big-endian bytes of the second, then 8 big-endian bytes
of the counter. -/
def newObjectId (u : Int) (c : Nat) : List Nat :=
  [(u / 2 ^ 24 % 256).toNat, (u / 2 ^ 16 % 256).toNat,
   (u / 2 ^ 8 % 256).toNat, (u % 256).toNat,
   c / 2 ^ 56 % 256, c / 2 ^ 48 % 256, c / 2 ^ 40 % 256, c / 2 ^ 32 % 256,
   c / 2 ^ 24 % 256, c / 2 ^ 16 % 256, c / 2 ^ 8 % 256, c % 256]

/-- nextOidCounter: under the lock, a zero counter is first seeded from a
random 64-bit draw (rnd, reduced to uint64), then the counter is
incremented with uint64 wraparound; the incremented counter is both the
new state and the returned value. -/
def nextOidCounter (rnd ctr : Nat) : Nat :=
  let c := if ctr = 0 then rnd % 2 ^ 64 else ctr
  (c + 1) % 2 ^ 64

/-! ## The connection pool (pool.go)

The Conn values a pool manages are modelled from the spec: a connection
exposes Err(), reporting a recorded permanent failure, and its own Close()
(connection.go is not among the provided sources; pool.go, which decides
the pool claims, is). A connection is its identity plus its Err() status;
whether the pool invoked the underlying Close is returned explicitly so
theorems can observe it. -/

structure MConn where
  connId : Nat
  hasErr : Bool
deriving DecidableEq, Repr

/-- The pool: the factory is left abstract (its outcome is an input of
poolGet); conns is the buffered channel of idle connections, capacity
maxIdle, in FIFO order. -/
structure PoolSt where
  maxIdle : Nat
  conns : List MConn
deriving DecidableEq, Repr

/-- The handle Pool.Get returns; Close nils out conn. -/
structure PooledConn where
  conn : Option MConn
deriving DecidableEq, Repr

/-- NewPool: an empty buffered channel of capacity maxIdle. -/
def NewPool (maxIdle : Nat) : PoolSt := { maxIdle := maxIdle, conns := [] }

/-- pooledConnection.Close: a nil handle is a no-op; a connection with a
recorded permanent error returns immediately (the source neither pools it
nor invokes its underlying Close, and leaves the handle's conn set);
otherwise a non-blocking channel send returns it to the idle set when
capacity remains, else the underlying Close runs and the connection is
dropped. The Bool reports whether the underlying Close was invoked. -/
def pooledConnectionClose (c : PooledConn) (p : PoolSt) :
    PooledConn × PoolSt × Bool :=
  match c.conn with
  | none => (c, p, false)
  | some conn =>
    if conn.hasErr then (c, p, false)
    else if p.conns.length < p.maxIdle then
      ({ conn := none }, { p with conns := p.conns ++ [conn] }, false)
    else
      ({ conn := none }, p, true)

/-- Pool.Get: a non-blocking receive from the idle channel, else the
factory builds a connection (its failure is surfaced directly). -/
def poolGet (p : PoolSt) (factory : Except String MConn) :
    PoolSt × Except String PooledConn :=
  match p.conns with
  | c :: rest => ({ p with conns := rest }, .ok { conn := some c })
  | [] =>
    match factory with
    | .ok c => (p, .ok { conn := some c })
    | .error e => (p, .error e)

/-- One pool operation, with the environment's contribution (the factory's
outcome, or the state of the handle being closed) as data. -/
inductive PoolOp where
  | get (factory : Except String MConn)
  | closeH (h : Option MConn)
deriving Repr

/-- The pool-state effect of one operation. -/
def poolStep (p : PoolSt) (op : PoolOp) : PoolSt :=
  match op with
  | .get f => (poolGet p f).1
  | .closeH h => (pooledConnectionClose { conn := h } p).2.1

/-! ## Claim C1 -/

/-- C1: the claim says a field whose bson tag name is "-" is excluded from
the compiled field mapping and Encode writes no element for it. The code
contradicts its own documentation ("If the name is \x22-\x22, then the field is
ignored"): the tag-name test only skips the name-override/flag block, after
which the field is still added to the mapping under its Go name, and Encode
writes an element for it. Here the struct type with single field F tagged
"-" compiles to a mapping containing F, and Encode of a value with F = 7
writes the int32 element named F. -/
theorem C1_code_bug :
    structSpecForType 9 "T" [.plain "F" "-" true] =
      .ok ⟨[("F", ⟨"F", [0], false⟩)], [⟨"F", [0], false⟩], [("F", 1), ("_id", 0)]⟩ ∧
    Encode 9 [] (some (.vStruct "T" [.plain "F" "-" true] [.vInt 7])) =
      .ret (some ([12, 0, 0, 0, 16] ++ strB "F" ++ [0, 7, 0, 0, 0, 0])) none :=
  ⟨rfl, rfl⟩

/-! ## Claim C2 -/

/-- C2: the claim (and pool.go's own doc comment, "Otherwise, Close()
releases the resources used by the connection") says closing a pooled
handle whose connection has a recorded permanent error invokes the
underlying connection's Close and discards it. The code returns nil
immediately when Err() is non-nil: the connection is indeed never returned
to the idle set, but the underlying Close is not invoked and the handle's
conn field is not even cleared. Evaluated on a pool of capacity 2 with a
free idle slot and a connection whose Err() is non-nil. -/
theorem C2_code_bug :
    pooledConnectionClose { conn := some { connId := 1, hasErr := true } } (NewPool 2) =
      ({ conn := some { connId := 1, hasErr := true } }, NewPool 2, false) :=
  rfl

/-! ## Claim C10 -/

/-- C10: a bson tag carrying an unrecognized flag, or containing the
substring "/c", makes field-mapping compilation panic with a value that is
not the encoder's aborted wrapper, so Encode's recovery handler re-throws
it to the caller instead of returning an error. -/
theorem C10_confirmed :
    Encode 9 [] (some (.vStruct "T" [.plain "F" "x,weird" true] [.vInt 7])) =
      .panicked "bson: unknown field flag weird for type T" ∧
    Encode 9 [] (some (.vStruct "U" [.plain "G" "a/c" true] [.vBool true])) =
      .panicked "use ,omitempty instead of /c in bson field tag" :=
  ⟨rfl, rfl⟩

/-! ## Claim C3 -/

/-- C3 counterexample: the claim's "a signed integer value is written with
the 32-bit integer kind if and only if it lies in [-2147483648, 2147483647]"
fails: the Go int64 value 5 lies in that interval yet the int64 kind
encoder always writes the 64-bit kind (0x12), never the 32-bit kind
(0x10). -/
theorem C3_counterexample :
    encodeValue 1 "x" defaultFieldSpec (some (.vInt64 5)) [] =
      .ok ([kindInt64] ++ strB "x" ++ [0] ++ u64le 5) ∧
    kindInt64 ≠ kindInt32 ∧ -(2 ^ 31) ≤ (5 : Int) ∧ (5 : Int) ≤ 2 ^ 31 - 1 :=
  ⟨rfl, by decide, by decide, by decide⟩

/-- C3 amended: integer width depends on the Go type. A value of type int
is written with the 32-bit kind iff it fits the signed 32-bit range and
with the 64-bit kind otherwise; int8/int16/int32 values always get the
32-bit kind and int64 values always the 64-bit kind. A uint or uint32
value is written 32-bit iff it is at most 2147483647, 64-bit iff it is
larger but fits the signed 64-bit range, and aborts with an encode error
beyond that; uint8/uint16 values are always 32-bit; uint64 values are
written 64-bit iff they fit the signed 64-bit range and abort with an
encode error otherwise (in particular 18446744073709551615). -/
theorem C3_corrected :
    (∀ (name : String) (b : Buffer) (i : Int),
      ((-(2 ^ 31) ≤ i ∧ i ≤ 2 ^ 31 - 1) →
        encodeValue 1 name defaultFieldSpec (some (.vInt i)) b =
          .ok (writeUint32 (writeKindName b kindInt32 name) (intToU32 i))) ∧
      (¬(-(2 ^ 31) ≤ i ∧ i ≤ 2 ^ 31 - 1) →
        encodeValue 1 name defaultFieldSpec (some (.vInt i)) b =
          .ok (writeUint64 (writeKindName b kindInt64 name) (intToU64 i)))) ∧
    (∀ (name : String) (b : Buffer) (i : Int),
      encodeValue 1 name defaultFieldSpec (some (.vInt32 i)) b =
        .ok (writeUint32 (writeKindName b kindInt32 name) (intToU32 i))) ∧
    (∀ (name : String) (b : Buffer) (i : Int),
      encodeValue 1 name defaultFieldSpec (some (.vInt64 i)) b =
        .ok (writeUint64 (writeKindName b kindInt64 name) (intToU64 i))) ∧
    (∀ (name : String) (b : Buffer) (u : Nat),
      encodeValue 1 name defaultFieldSpec (some (.vUint16 u)) b =
        .ok (writeUint32 (writeKindName b kindInt32 name) (u % 2 ^ 32))) ∧
    (∀ (name : String) (b : Buffer) (u : Nat),
      (u ≤ 2 ^ 31 - 1 →
        encodeValue 1 name defaultFieldSpec (some (.vUint u)) b =
          .ok (writeUint32 (writeKindName b kindInt32 name) (u % 2 ^ 32))) ∧
      (2 ^ 31 - 1 < u → u < 2 ^ 63 →
        encodeValue 1 name defaultFieldSpec (some (.vUint u)) b =
          .ok (writeUint64 (writeKindName b kindInt64 name) (u % 2 ^ 64))) ∧
      (2 ^ 63 ≤ u →
        encodeValue 1 name defaultFieldSpec (some (.vUint u)) b =
          .error (.abortP (.strError "bson: uint value does not fit in int64")))) ∧
    (∀ (name : String) (b : Buffer) (u : Nat),
      (u < 2 ^ 63 →
        encodeValue 1 name defaultFieldSpec (some (.vUint64 u)) b =
          .ok (writeUint64 (writeKindName b kindInt64 name) (u % 2 ^ 64))) ∧
      (2 ^ 63 ≤ u →
        encodeValue 1 name defaultFieldSpec (some (.vUint64 u)) b =
          .error (.abortP (.strError "bson: uint64 value does not fit in int64")))) := by
  refine ⟨?_, ?_, ?_, ?_, ?_, ?_⟩
  · intro name b i
    rw [show encodeValue 1 name defaultFieldSpec (some (.vInt i)) b =
          .ok (encodeInt name defaultFieldSpec i b) from rfl]
    unfold encodeInt
    rw [if_neg (by simp [defaultFieldSpec])]
    constructor
    · intro h; rw [if_pos h]
    · intro h; rw [if_neg h]
  · intro name b i
    rw [show encodeValue 1 name defaultFieldSpec (some (.vInt32 i)) b =
          .ok (encodeInt32 name defaultFieldSpec i b) from rfl]
    unfold encodeInt32
    rw [if_neg (by simp [defaultFieldSpec])]
  · intro name b i
    rw [show encodeValue 1 name defaultFieldSpec (some (.vInt64 i)) b =
          .ok (encodeInt64 kindInt64 name defaultFieldSpec i b) from rfl]
    unfold encodeInt64
    rw [if_neg (by simp [defaultFieldSpec])]
  · intro name b u
    rw [show encodeValue 1 name defaultFieldSpec (some (.vUint16 u)) b =
          .ok (encodeUint16 name defaultFieldSpec u b) from rfl]
    unfold encodeUint16
    rw [if_neg (by simp [defaultFieldSpec])]
  · intro name b u
    rw [show encodeValue 1 name defaultFieldSpec (some (.vUint u)) b =
          encodeUint name defaultFieldSpec u b from rfl]
    unfold encodeUint
    rw [if_neg (by simp [defaultFieldSpec])]
    refine ⟨?_, ?_, ?_⟩
    · intro h
      rw [if_neg (by omega), if_pos (by omega)]
    · intro h1 h2
      rw [if_neg (by omega), if_neg (by omega)]
    · intro h
      rw [if_pos (by omega)]
  · intro name b u
    rw [show encodeValue 1 name defaultFieldSpec (some (.vUint64 u)) b =
          encodeUint64 name defaultFieldSpec u b from rfl]
    unfold encodeUint64
    rw [if_neg (by simp [defaultFieldSpec])]
    constructor
    · intro h
      rw [if_neg (by omega)]
    · intro h
      rw [if_pos (by omega)]

/-- C3 witness: the amended width rule evaluated at the spec's own test
vector, by applying C3_corrected at concrete inputs. -/
theorem C3_corrected_witness :
    encodeValue 1 "n" defaultFieldSpec (some (.vInt 2147483647)) [] =
      .ok (writeUint32 (writeKindName [] kindInt32 "n") (intToU32 2147483647)) ∧
    encodeValue 1 "n" defaultFieldSpec (some (.vInt 2147483648)) [] =
      .ok (writeUint64 (writeKindName [] kindInt64 "n") (intToU64 2147483648)) ∧
    encodeValue 1 "n" defaultFieldSpec (some (.vUint 4294967296)) [] =
      .ok (writeUint64 (writeKindName [] kindInt64 "n") (4294967296 % 2 ^ 64)) ∧
    encodeValue 1 "n" defaultFieldSpec (some (.vUint64 18446744073709551615)) [] =
      .error (.abortP (.strError "bson: uint64 value does not fit in int64")) := by
  obtain ⟨h1, _, _, _, h5, h6⟩ := C3_corrected
  exact ⟨(h1 "n" [] 2147483647).1 (by decide),
         (h1 "n" [] 2147483648).2 (by decide),
         (h5 "n" [] 4294967296).2.1 (by decide) (by decide),
         (h6 "n" [] 18446744073709551615).2 (by decide)⟩

/-! ## Claim C7 -/

/-- C7 counterexample: two identifiers generated back-to-back can be equal.
When the counter holds 2^64 - 1, the increment wraps to 0; the next call
sees the zero counter, re-seeds from the random source, and a draw of
2^64 - 1 wraps to 0 again, so both calls return counter value 0 and two
ids created in the same second are identical. -/
theorem C7_counterexample :
    nextOidCounter 0 (2 ^ 64 - 1) = 0 ∧
    nextOidCounter (2 ^ 64 - 1) (nextOidCounter 0 (2 ^ 64 - 1)) = 0 ∧
    newObjectId 5 (nextOidCounter 0 (2 ^ 64 - 1)) =
      newObjectId 5 (nextOidCounter (2 ^ 64 - 1) (nextOidCounter 0 (2 ^ 64 - 1))) := by
  refine ⟨by decide, by decide, by decide⟩

/-- C7 amended: every generated identifier is exactly 12 bytes and its
first 4 bytes are the big-endian creation second (for a second that fits
32 bits); two identifiers generated back-to-back are distinct whenever the
first call does not return counter value 0 — i.e. except in the corner
where the 64-bit counter wraps to zero and the re-seed draws 2^64 - 1. -/
theorem C7_corrected :
    (∀ (u : Int) (c : Nat), (newObjectId u c).length = 12) ∧
    (∀ (u : Int) (c : Nat), 0 ≤ u → u < 2 ^ 32 →
      (newObjectId u c).take 4 =
        [u.toNat / 2 ^ 24 % 256, u.toNat / 2 ^ 16 % 256, u.toNat / 2 ^ 8 % 256,
         u.toNat % 256]) ∧
    (∀ (rnd1 rnd2 c : Nat) (u1 u2 : Int),
      nextOidCounter rnd1 c ≠ 0 →
      newObjectId u1 (nextOidCounter rnd1 c) ≠
        newObjectId u2 (nextOidCounter rnd2 (nextOidCounter rnd1 c))) := by
  refine ⟨fun u c => rfl, ?_, ?_⟩
  · intro u c h0 h32
    simp [newObjectId]
    omega
  · intro rnd1 rnd2 c u1 u2 hne heq
    set v1 := nextOidCounter rnd1 c with hv1
    have hb1 : v1 < 2 ^ 64 := by
      rw [hv1]; unfold nextOidCounter; exact Nat.mod_lt _ (by norm_num)
    have hv2 : nextOidCounter rnd2 v1 = (v1 + 1) % 2 ^ 64 := by
      unfold nextOidCounter; rw [if_neg hne]
    rw [hv2] at heq
    set v2 := (v1 + 1) % 2 ^ 64 with hv2d
    have hb2 : v2 < 2 ^ 64 := Nat.mod_lt _ (by norm_num)
    simp only [newObjectId, List.cons.injEq, and_true] at heq
    obtain ⟨-, -, -, -, e5, e6, e7, e8, e9, e10, e11, e12⟩ := heq
    omega

/-- C7 witness: the amended statement applied at a 12-byte id for second 5
and counter 3, and at a back-to-back pair starting from counter 10. -/
theorem C7_corrected_witness :
    (newObjectId 5 3).length = 12 ∧
    (newObjectId 5 3).take 4 =
      [(5 : Int).toNat / 2 ^ 24 % 256, (5 : Int).toNat / 2 ^ 16 % 256,
       (5 : Int).toNat / 2 ^ 8 % 256, (5 : Int).toNat % 256] ∧
    newObjectId 5 (nextOidCounter 0 10) ≠
      newObjectId 5 (nextOidCounter 7 (nextOidCounter 0 10)) :=
  ⟨C7_corrected.1 5 3, C7_corrected.2.1 5 3 (by decide) (by decide),
   C7_corrected.2.2 0 7 10 5 5 (by decide)⟩

/-! ## Claim C8 -/

/-- C8: the number of idle connections never exceeds maxIdle: every Get and
every handle Close preserves the bound (and leaves the capacity unchanged),
and any operation sequence starting from a fresh pool keeps at most maxIdle
idle connections. -/
theorem C8_confirmed :
    (∀ (p : PoolSt) (op : PoolOp), p.conns.length ≤ p.maxIdle →
      (poolStep p op).conns.length ≤ (poolStep p op).maxIdle ∧
      (poolStep p op).maxIdle = p.maxIdle) ∧
    (∀ (n : Nat) (ops : List PoolOp),
      (ops.foldl poolStep (NewPool n)).conns.length ≤ n) := by
  have step : ∀ (p : PoolSt) (op : PoolOp), p.conns.length ≤ p.maxIdle →
      (poolStep p op).conns.length ≤ (poolStep p op).maxIdle ∧
      (poolStep p op).maxIdle = p.maxIdle := by
    intro p op h
    match op with
    | .get f =>
      match p, f with
      | ⟨mi, []⟩, .ok c => exact ⟨h, rfl⟩
      | ⟨mi, []⟩, .error e => exact ⟨h, rfl⟩
      | ⟨mi, c :: rest⟩, f =>
        cases f <;>
          simp_all [poolStep, poolGet] <;> omega
    | .closeH hconn =>
      match hconn with
      | none => exact ⟨h, rfl⟩
      | some conn =>
        simp only [poolStep, pooledConnectionClose]
        by_cases he : conn.hasErr
        · simp [he, h]
        · by_cases hcap : p.conns.length < p.maxIdle
          · simp only [he, hcap, if_true, if_false, Bool.false_eq_true, if_neg]
            simp [List.length_append]
            omega
          · simp [he, hcap, h]
  refine ⟨step, ?_⟩
  intro n ops
  have main : ∀ (ops : List PoolOp) (p : PoolSt), p.conns.length ≤ p.maxIdle →
      (ops.foldl poolStep p).conns.length ≤ (ops.foldl poolStep p).maxIdle ∧
      (ops.foldl poolStep p).maxIdle = p.maxIdle := by
    intro ops
    induction ops with
    | nil => exact fun p h => ⟨h, rfl⟩
    | cons op rest ih =>
      intro p h
      obtain ⟨h1, h2⟩ := step p op h
      obtain ⟨h3, h4⟩ := ih (poolStep p op) h1
      exact ⟨h3, by rw [List.foldl_cons] at *; omega⟩
  have := main ops (NewPool n) (by simp [NewPool])
  simpa [NewPool] using this.1.trans_eq this.2

/-- C8 witness: the single-step bound applied to a fresh pool of capacity 2
closing a healthy connection, and the fold bound on a concrete operation
sequence that checks out three handles and closes all three. -/
theorem C8_confirmed_witness :
    ((poolStep (NewPool 2) (.closeH (some ⟨1, false⟩))).conns.length ≤
      (poolStep (NewPool 2) (.closeH (some ⟨1, false⟩))).maxIdle ∧
     (poolStep (NewPool 2) (.closeH (some ⟨1, false⟩))).maxIdle = (NewPool 2).maxIdle) ∧
    (List.foldl poolStep (NewPool 2)
      [.get (.ok ⟨1, false⟩), .get (.ok ⟨2, false⟩), .get (.ok ⟨3, false⟩),
       .closeH (some ⟨1, false⟩), .closeH (some ⟨2, false⟩),
       .closeH (some ⟨3, false⟩)]).conns.length ≤ 2 :=
  ⟨C8_confirmed.1 (NewPool 2) (.closeH (some ⟨1, false⟩)) (by decide),
   C8_confirmed.2 2 _⟩

/-! ## Claim C9 -/

/-- A fold whose step skips the elements satisfying p acts exactly like the
plain fold over the list with those elements filtered out. -/
lemma foldl_if_skip {α β : Type} (p : β → Bool) (g : α → β → α) (es : List β) (a : α) :
    es.foldl (fun acc kv => if p kv then acc else g acc kv) a =
      (es.filter (fun kv => !p kv)).foldl g a := by
  induction es generalizing a with
  | nil => rfl
  | cons kv rest ih =>
    simp only [List.foldl_cons, List.filter_cons]
    cases h : p kv
    · simp [h, ih]
    · simp [h, ih]

/-- The skipping key loop with skipId set coincides pointwise with a plain
if-guarded pair loop. -/
lemma mapLoopStep_true (encV : String → FieldSpec → Option GoValue → Buffer → EncRes) :
    mapLoopStep encV true =
      fun acc kv => if kv.1 == "_id" then acc else dLoopStep encV acc kv := by
  funext acc kv
  simp [mapLoopStep, dLoopStep]

/-- The key loop without skipId is the plain pair loop. -/
lemma mapLoopStep_false (encV : String → FieldSpec → Option GoValue → Buffer → EncRes) :
    mapLoopStep encV false = dLoopStep encV := by
  funext acc kv
  simp [mapLoopStep, dLoopStep]

/-- A document body loop that skips the "_id" key writes exactly the
elements of the pair list with the "_id" entries filtered out. -/
lemma mapLoop_skip (encV : String → FieldSpec → Option GoValue → Buffer → EncRes)
    (es : List (String × GoValue)) (a : EncRes) :
    es.foldl (mapLoopStep encV true) a =
    (es.filter (fun kv => kv.1 != "_id")).foldl (dLoopStep encV) a := by
  rw [mapLoopStep_true]
  have h := foldl_if_skip (fun kv : String × GoValue => kv.1 == "_id")
    (dLoopStep encV) es a
  simpa [bne] using h

/-- C9: a top-level keyed mapping containing an "_id" key encodes exactly
like an ordered document whose first pair is the "_id" entry followed by
the remaining entries in iteration order, for every iteration order
(quantified as the entry list), so "_id" is written first and exactly
once; a nested map (topLevel = false) encodes its entries exactly in
iteration order with no reordering. -/
theorem C9_confirmed :
    (∀ (fuel : Nat) (es : List (String × GoValue)) (v : GoValue) (b : Buffer),
      lookupA es "_id" = some v →
      writeMapWith (encodeValue fuel) true (some es) b =
        writeDWith (encodeValue fuel) (("_id", v) :: es.filter (fun kv => kv.1 != "_id")) b) ∧
    (∀ (fuel : Nat) (es : List (String × GoValue)) (b : Buffer),
      writeMapWith (encodeValue fuel) false (some es) b =
        writeDWith (encodeValue fuel) es b) ∧
    (∀ (es : List (String × GoValue)) (v : GoValue),
      ((("_id", v) :: es.filter (fun kv => kv.1 != "_id")).map Prod.fst).count "_id" = 1) := by
  refine ⟨?_, ?_, ?_⟩
  · intro fuel es v b h
    simp only [writeMapWith, writeDWith, h, Option.isSome_some, List.foldl_cons]
    rw [show dLoopStep (encodeValue fuel) (.ok (next4 b)) ("_id", v) =
          encodeValue fuel "_id" defaultFieldSpec (some v) (next4 b) from rfl]
    rw [mapLoop_skip]
  · intro fuel es b
    simp [writeMapWith, writeDWith, mapLoopStep_false]
  · intro es v
    have hnotmem : "_id" ∉ (es.filter (fun kv => kv.1 != "_id")).map Prod.fst := by
      intro hmem
      obtain ⟨kv, hkv, hfst⟩ := List.mem_map.mp hmem
      have hp := (List.mem_filter.mp hkv).2
      simp [hfst] at hp
    rw [List.map_cons, List.count_cons_self, List.count_eq_zero.mpr hnotmem]

/-- C9 witness: the top-level and nested equations and the exactly-once
count applied to the concrete map with iteration order
[("a", 1), ("_id", 2)]. -/
theorem C9_confirmed_witness :
    writeMapWith (encodeValue 3) true (some [("a", .vInt 1), ("_id", .vInt 2)]) [] =
      writeDWith (encodeValue 3)
        (("_id", .vInt 2) :: [("a", GoValue.vInt 1), ("_id", GoValue.vInt 2)].filter
          (fun kv => kv.1 != "_id")) [] ∧
    writeMapWith (encodeValue 3) false (some [("a", .vInt 1), ("_id", .vInt 2)]) [] =
      writeDWith (encodeValue 3) [("a", .vInt 1), ("_id", .vInt 2)] [] ∧
    (((("_id", GoValue.vInt 2)) :: [("a", GoValue.vInt 1), ("_id", GoValue.vInt 2)].filter
        (fun kv => kv.1 != "_id")).map Prod.fst).count "_id" = 1 :=
  ⟨C9_confirmed.1 3 [("a", .vInt 1), ("_id", .vInt 2)] (.vInt 2) [] rfl,
   C9_confirmed.2.1 3 [("a", .vInt 1), ("_id", .vInt 2)] [],
   C9_confirmed.2.2 [("a", .vInt 1), ("_id", .vInt 2)] (.vInt 2)⟩

/-! ## Claim C5 -/

/-- An empty bson tag parses to the field's own name with no flags. -/
lemma parseFieldTag_empty (t nm : String) : parseFieldTag t nm "" = .ok ⟨nm, [], false⟩ := rfl

/-- C5 counterexample: the claim says a shallower field overrides a
same-named deeper field. When the embedded struct is declared before the
top-level field (type Outer with anonymous Inner containing B, then a
field B), the compiled ordered list keeps both: the deeper B (access path
[0, 0]) and the shallower B (access path [1]), and Encode writes two "B"
elements (values 1 and 2), so the deeper field is not overridden. -/
theorem C5_counterexample :
    compileStructSpec 9 "Outer" [.anon "Inner" true [.plain "B" "" true], .plain "B" "" true]
        0 [] [] ⟨[], [], []⟩ =
      .ok ([("B", 0)],
        ⟨[("B", ⟨"B", [1], false⟩)], [⟨"B", [0, 0], false⟩, ⟨"B", [1], false⟩], []⟩) ∧
    Encode 9 []
      (some (.vStruct "Outer" [.anon "Inner" true [.plain "B" "" true], .plain "B" "" true]
        [.vStruct "Inner" [.plain "B" "" true] [.vInt 1], .vInt 2])) =
      .ret (some ([19, 0, 0, 0, 16] ++ strB "B" ++ [0, 1, 0, 0, 0, 16] ++ strB "B" ++
        [0, 2, 0, 0, 0, 0])) none :=
  ⟨rfl, rfl⟩

/-- C5 amended: among fields discovered by depth-first traversal, two
same-named fields at equal depth are both dropped from the mapping (so
neither is encoded); a shallower field discovered before a same-named
deeper field keeps the deeper one out of the mapping entirely; but a
deeper field discovered before the shallower one is only replaced in the
name-keyed lookup map — it remains in the ordered encode list, so both
fields are encoded. Stated for every field name over the four
representative shapes (equal depth at the top level, equal depth under two
embedded members, shallower-first, deeper-first) with any spare fuel. -/
theorem C5_corrected :
    (∀ (f : Nat) (nm : String),
      compileStructSpec (f + 4) "T" [.plain nm "" true, .plain nm "" true] 0 [] [] ⟨[], [], []⟩ =
        .ok ([(nm, 0)], ⟨[], [], []⟩)) ∧
    (∀ (f : Nat) (nm : String),
      compileStructSpec (f + 4) "T"
          [.anon "I1" true [.plain nm "" true], .anon "I2" true [.plain nm "" true]]
          0 [] [] ⟨[], [], []⟩ =
        .ok ([(nm, 1)], ⟨[], [], []⟩)) ∧
    (∀ (f : Nat) (nm : String),
      compileStructSpec (f + 4) "T" [.plain nm "" true, .anon "I" true [.plain nm "" true]]
          0 [] [] ⟨[], [], []⟩ =
        .ok ([(nm, 0)], ⟨[(nm, ⟨nm, [0], false⟩)], [⟨nm, [0], false⟩], []⟩)) ∧
    (∀ (f : Nat) (nm : String),
      compileStructSpec (f + 4) "T" [.anon "I" true [.plain nm "" true], .plain nm "" true]
          0 [] [] ⟨[], [], []⟩ =
        .ok ([(nm, 0)],
          ⟨[(nm, ⟨nm, [1], false⟩)], [⟨nm, [0, 0], false⟩, ⟨nm, [1], false⟩], []⟩)) := by
  refine ⟨?_, ?_, ?_, ?_⟩ <;> intro f nm <;>
    simp [compileStructSpec, parseFieldTag_empty, lookupA, mapInsert, mapDelete,
      List.filter, List.any]

/-! ## Claim C4 -/

/-- C4 counterexample: an out-of-range uint64 aborts the Encode call with a
plain errors.New message ("bson: uint64 value does not fit in int64"),
which is not the typed error naming the offending type that the claim
promises for every malformed element (the returned buffer is nil, as
claimed). -/
theorem C4_counterexample :
    Encode 9 [] (some (.vMap [("x", .vUint64 18446744073709551615)])) =
      .ret none (some (.strError "bson: uint64 value does not fit in int64")) ∧
    EncErr.isType (.strError "bson: uint64 value does not fit in int64") = false :=
  ⟨rfl, rfl⟩

/-- An error accumulator freezes a document body loop. -/
lemma foldl_error_frozen {β : Type} (f : EncRes → β → EncRes)
    (hf : ∀ e kv, f (.error e) kv = .error e) (es : List β) (e : Fail) :
    es.foldl f (.error e) = .error e := by
  induction es with
  | nil => rfl
  | cons kv rest ih => rw [List.foldl_cons, hf]; exact ih

/-- A uint64 element beyond the signed 64-bit range always fails to
encode, whatever the fuel. -/
lemma encodeValue_bigUint64 (fuel : Nat) (k : String) (b : Buffer) (u : Nat)
    (hu : 2 ^ 63 ≤ u) :
    ∃ e, encodeValue fuel k defaultFieldSpec (some (.vUint64 u)) b = .error e := by
  cases fuel with
  | zero => exact ⟨.fuelOut, rfl⟩
  | succ f =>
    refine ⟨.abortP (.strError "bson: uint64 value does not fit in int64"), ?_⟩
    rw [show encodeValue (f + 1) k defaultFieldSpec (some (.vUint64 u)) b =
          encodeUint64 k defaultFieldSpec u b from rfl]
    unfold encodeUint64
    rw [if_neg (by simp [defaultFieldSpec]), if_pos hu]

/-- Looking up a key of a pair list with no duplicate keys finds its
value. -/
lemma lookupA_mem_nodup {β : Type} (es : List (String × β)) (k : String) (v : β)
    (hmem : (k, v) ∈ es) (hnd : (es.map Prod.fst).Nodup) : lookupA es k = some v := by
  induction es with
  | nil => cases hmem
  | cons kv rest ih =>
    obtain ⟨k1, v1⟩ := kv
    simp only [List.map_cons, List.nodup_cons] at hnd
    rcases List.mem_cons.mp hmem with heq | htail
    · injection heq with h1 h2
      subst h1; subst h2
      simp [lookupA]
    · have hk : ¬ (k1 == k) = true := by
        intro hb
        have hkk : k1 = k := by simpa using hb
        apply hnd.1
        rw [hkk]
        exact List.mem_map.mpr ⟨(k, v), htail, rfl⟩
      rw [show lookupA ((k1, v1) :: rest) k =
            if k1 == k then some v1 else lookupA rest k from rfl, if_neg hk]
      exact ih htail hnd.2

/-- The key loop's step freezes an error accumulator. -/
lemma mapLoopStep_frozen (encV : String → FieldSpec → Option GoValue → Buffer → EncRes)
    (s : Bool) (e : Fail) (kv : String × GoValue) :
    mapLoopStep encV s (.error e) kv = .error e := by
  unfold mapLoopStep
  split <;> rfl

/-- A fold whose step freezes errors and fails on a member element never
produces a success. -/
lemma foldl_reaches_bad {β : Type} (f : EncRes → β → EncRes) (bad : β)
    (hfreeze : ∀ e kv, f (.error e) kv = .error e)
    (hbad : ∀ b, ∃ e, f (.ok b) bad = .error e) :
    ∀ (es : List β) (a : EncRes), bad ∈ es → ∃ e, es.foldl f a = .error e := by
  intro es
  induction es with
  | nil => intro a hmem; cases hmem
  | cons kv rest ih =>
    intro a hmem
    rw [List.foldl_cons]
    rcases List.mem_cons.mp hmem with heq | htail
    · subst heq
      cases a with
      | error e =>
        rw [hfreeze]
        exact ⟨e, foldl_error_frozen f hfreeze rest e⟩
      | ok b =>
        obtain ⟨e0, he0⟩ := hbad b
        rw [he0]
        exact ⟨e0, foldl_error_frozen f hfreeze rest e0⟩
    · exact ih _ htail

/-- The whole top-level map write fails when some entry holds an
out-of-range uint64 (keys are distinct, as in a Go map). -/
lemma writeMap_bad_entry (fuel : Nat) (buf : Buffer) (es : List (String × GoValue))
    (k : String) (u : Nat) (hmem : (k, GoValue.vUint64 u) ∈ es) (hu : 2 ^ 63 ≤ u)
    (hnd : (es.map Prod.fst).Nodup) :
    ∃ e, writeMapWith (encodeValue fuel) true (some es) buf = .error e := by
  by_cases hk : k = "_id"
  · subst hk
    have hl : lookupA es "_id" = some (.vUint64 u) := lookupA_mem_nodup es _ _ hmem hnd
    obtain ⟨e0, he0⟩ := encodeValue_bigUint64 fuel "_id" (next4 buf) u hu
    refine ⟨e0, ?_⟩
    simp only [writeMapWith, hl, he0, Option.isSome_some]
    rw [foldl_error_frozen _ (mapLoopStep_frozen (encodeValue fuel) true) es e0]
  · have hbad : ∀ (s : Bool) (b : Buffer), ∃ e,
        mapLoopStep (encodeValue fuel) s (.ok b) (k, .vUint64 u) = .error e := by
      intro s b
      obtain ⟨e0, he0⟩ := encodeValue_bigUint64 fuel k b u hu
      refine ⟨e0, ?_⟩
      unfold mapLoopStep
      rw [if_neg (by simp [beq_eq_false_iff_ne.mpr hk])]
      exact he0
    cases hl : lookupA es "_id" with
    | none =>
      obtain ⟨e0, he0⟩ := foldl_reaches_bad (mapLoopStep (encodeValue fuel) false)
        (k, GoValue.vUint64 u) (mapLoopStep_frozen (encodeValue fuel) false)
        (hbad false) es (.ok (next4 buf)) hmem
      refine ⟨e0, ?_⟩
      simp only [writeMapWith, hl, Option.isSome_none]
      rw [he0]
    | some w =>
      obtain ⟨e0, he0⟩ := foldl_reaches_bad (mapLoopStep (encodeValue fuel) true)
        (k, GoValue.vUint64 u) (mapLoopStep_frozen (encodeValue fuel) true)
        (hbad true) es
        (encodeValue fuel "_id" defaultFieldSpec (some w) (next4 buf)) hmem
      refine ⟨e0, ?_⟩
      simp only [writeMapWith, hl, Option.isSome_some]
      rw [he0]

/-- C4 amended: any unsupported or malformed element anywhere in the
traversal aborts the entire Encode call with an error, and whenever Encode
returns an error the returned buffer is nil; the error is the typed
EncodeTypeError naming the offending type for unsupported types, but for
malformed values (an unsigned integer beyond the signed 64-bit range) it
is a plain string error that names no type. -/
theorem C4_corrected :
    (∀ (fuel : Nat) (buf : Buffer) (doc : Option GoValue) (r : Option Buffer) (e : EncErr),
      Encode fuel buf doc = .ret r (some e) → r = none) ∧
    (∀ (fuel : Nat) (buf : Buffer) (es : List (String × GoValue)) (k : String) (u : Nat),
      (k, GoValue.vUint64 u) ∈ es → 2 ^ 63 ≤ u → (es.map Prod.fst).Nodup →
      ∀ (bs : Buffer) (e2 : Option EncErr),
        Encode fuel buf (some (.vMap es)) ≠ .ret (some bs) e2) ∧
    Encode 2 [] (some (.vMap [("x", .vUnsupported "chan int")])) =
      .ret none (some (.typeError "chan int")) := by
  refine ⟨?_, ?_, rfl⟩
  · intro fuel buf doc r e h
    match doc with
    | none => simp [Encode] at h
    | some d =>
      cases d <;> simp only [Encode] at h <;>
        (try split at h) <;> (try split at h) <;> simp_all
  · intro fuel buf es k u hmem hu hnd bs e2 h
    obtain ⟨e0, he0⟩ := writeMap_bad_entry fuel buf es k u hmem hu hnd
    simp only [Encode, he0] at h
    cases e0 <;> simp at h

/-- C4 witness: the amended statement applied at the counterexample's
inputs — the nil-result rule at the failing uint64 map, and the abort rule
at the same map (entry "x" holding 2^64 - 1). -/
theorem C4_corrected_witness :
    (none : Option Buffer) = none ∧
    (∀ (bs : Buffer) (e2 : Option EncErr),
      Encode 9 [] (some (.vMap [("x", .vUint64 18446744073709551615)])) ≠
        .ret (some bs) e2) :=
  ⟨C4_corrected.1 9 [] (some (.vMap [("x", .vUint64 18446744073709551615)])) none
      (.strError "bson: uint64 value does not fit in int64") rfl,
   fun bs e2 => C4_corrected.2.1 9 [] [("x", .vUint64 18446744073709551615)] "x"
      18446744073709551615 (by simp) (by norm_num) (by simp) bs e2⟩

/-! ## Claim C6 -/

/-- The bytes of one complete document with the given body: 4-byte length
(body plus framing), the body, the terminator. -/
def docBytes (body : List Nat) : List Nat := u32le (body.length + 5) ++ body ++ [0]

/-- A bson tag with empty name and the omit-if-empty flag parses to the
field's own name with omitEmpty set. -/
lemma parseFieldTag_omit (t nm : String) :
    parseFieldTag t nm ",omitempty" = .ok ⟨nm, [], true⟩ := rfl

/-- Framing of a document with one written element at the start of an empty
buffer. -/
lemma frame_nil (body : List Nat) :
    endDoc (writeByte (0 :: 0 :: 0 :: 0 :: body) 0) 0 = docBytes body := by
  have hshape : writeByte (0 :: 0 :: 0 :: 0 :: body) 0 =
      0 :: 0 :: 0 :: 0 :: (body ++ [0]) := by
    simp [writeByte]
  rw [hshape]
  unfold endDoc patchAt docBytes
  have hlen : (0 :: 0 :: 0 :: 0 :: (body ++ [0])).length - 0 = body.length + 5 := by
    simp
  rw [hlen]
  have hdrop : (0 :: 0 :: 0 :: 0 :: (body ++ [0])).drop
      (0 + (u32le (body.length + 5)).length) = body ++ [0] := by
    rw [show 0 + (u32le (body.length + 5)).length = 4 from rfl]
    rfl
  rw [hdrop]
  simp

/-- Framing of an empty document at the start of an empty buffer. -/
lemma frame_empty : endDoc (writeByte [0, 0, 0, 0] 0) 0 = docBytes [] := rfl

/-- The scalar field shapes whose zero values the omit-if-empty claim
enumerates, pointers apart; the unsigned shapes are restricted to values
representable in int64, since larger values abort the whole encode
(see C3 and C4). -/
def scalarC6 : GoValue → Bool
  | .vBool _ => true
  | .vInt _ => true
  | .vInt32 _ => true
  | .vInt64 _ => true
  | .vUint16 _ => true
  | .vUint u => u < 2 ^ 63
  | .vUint64 u => u < 2 ^ 63
  | .vString _ => true
  | .vTime _ _ => true
  | _ => false

/-- The claim's zero test: false / 0 / empty string / absent / zero time. -/
def isEmptyValue : GoValue → Bool
  | .vBool bv => bv == false
  | .vInt i => i == 0
  | .vInt32 i => i == 0
  | .vInt64 i => i == 0
  | .vUint16 u => u == 0
  | .vUint u => u == 0
  | .vUint64 u => u == 0
  | .vString s => s == ""
  | .vTime sec nsec => timeIsZero sec nsec
  | .vPtr p => p.isNone
  | _ => false

/-- An omit-if-empty scalar field holding its zero value writes nothing. -/
lemma encodeValue_skip (f : Nat) (name : String) (v : GoValue) (b : Buffer)
    (hs : scalarC6 v = true) (he : isEmptyValue v = true) :
    encodeValue (f + 1) name ⟨name, [0], true⟩ (some v) b = .ok b := by
  cases v <;> simp_all [encodeValue, encodeBool, encodeInt, encodeInt32, encodeInt64,
    encodeUint16, encodeUint, encodeUint64, encodeString, encodeTime, scalarC6,
    isEmptyValue]

/-- A scalar field value that is not skipped (the field is not flagged, or
the value is non-zero) writes exactly one element: a kind byte, the name as
a C string, and a payload. -/
lemma encodeValue_written (f : Nat) (name : String) (v : GoValue) (fs : FieldSpec)
    (hs : scalarC6 v = true) (hno : fs.omitEmpty = false ∨ isEmptyValue v = false) :
    ∃ kb payload, ∀ b : Buffer,
      encodeValue (f + 1) name fs (some v) b =
        .ok (b ++ [kb] ++ strB name ++ [0] ++ payload) := by
  cases v with
  | vBool bv =>
    cases bv with
    | false =>
      rcases hno with h | h
      · refine ⟨kindBool, [0], fun b => ?_⟩
        rw [show encodeValue (f + 1) name fs (some (.vBool false)) b =
              .ok (encodeBool name fs false b) from rfl]
        unfold encodeBool
        simp [h, writeByte, writeKindName, writeCString, kindBool]
      · simp [isEmptyValue] at h
    | true =>
      refine ⟨kindBool, [1], fun b => ?_⟩
      rw [show encodeValue (f + 1) name fs (some (.vBool true)) b =
            .ok (encodeBool name fs true b) from rfl]
      unfold encodeBool
      simp [writeByte, writeKindName, writeCString, kindBool]
  | vInt i =>
    have hcond : (i == 0 && fs.omitEmpty) = false := by
      rcases hno with h | h
      · simp [h]
      · simp only [isEmptyValue] at h
        simp [h]
    by_cases hr : -(2 ^ 31) ≤ i ∧ i ≤ 2 ^ 31 - 1
    · refine ⟨kindInt32, u32le (intToU32 i), fun b => ?_⟩
      rw [show encodeValue (f + 1) name fs (some (.vInt i)) b =
            .ok (encodeInt name fs i b) from rfl]
      unfold encodeInt
      simp only [hcond]
      rw [if_neg (by simp), if_pos hr]
      simp [writeUint32, writeKindName, writeByte, writeCString, kindInt32]
    · refine ⟨kindInt64, u64le (intToU64 i), fun b => ?_⟩
      rw [show encodeValue (f + 1) name fs (some (.vInt i)) b =
            .ok (encodeInt name fs i b) from rfl]
      unfold encodeInt
      simp only [hcond]
      rw [if_neg (by simp), if_neg hr]
      simp [writeUint64, writeKindName, writeByte, writeCString, kindInt64]
  | vInt32 i =>
    have hcond : (i == 0 && fs.omitEmpty) = false := by
      rcases hno with h | h
      · simp [h]
      · simp only [isEmptyValue] at h
        simp [h]
    refine ⟨kindInt32, u32le (intToU32 i), fun b => ?_⟩
    rw [show encodeValue (f + 1) name fs (some (.vInt32 i)) b =
          .ok (encodeInt32 name fs i b) from rfl]
    unfold encodeInt32
    simp only [hcond]
    simp [writeUint32, writeKindName, writeByte, writeCString, kindInt32]
  | vInt64 i =>
    have hcond : (i == 0 && fs.omitEmpty) = false := by
      rcases hno with h | h
      · simp [h]
      · simp only [isEmptyValue] at h
        simp [h]
    refine ⟨kindInt64, u64le (intToU64 i), fun b => ?_⟩
    rw [show encodeValue (f + 1) name fs (some (.vInt64 i)) b =
          .ok (encodeInt64 kindInt64 name fs i b) from rfl]
    unfold encodeInt64
    simp only [hcond]
    simp [writeUint64, writeKindName, writeByte, writeCString, kindInt64]
  | vUint16 u =>
    have hcond : (u == 0 && fs.omitEmpty) = false := by
      rcases hno with h | h
      · simp [h]
      · simp only [isEmptyValue] at h
        simp [h]
    refine ⟨kindInt32, u32le (u % 2 ^ 32), fun b => ?_⟩
    rw [show encodeValue (f + 1) name fs (some (.vUint16 u)) b =
          .ok (encodeUint16 name fs u b) from rfl]
    unfold encodeUint16
    simp only [hcond]
    simp [writeUint32, writeKindName, writeByte, writeCString, kindInt32]
  | vUint u =>
    simp only [scalarC6, decide_eq_true_eq] at hs
    have hcond : (u == 0 && fs.omitEmpty) = false := by
      rcases hno with h | h
      · simp [h]
      · simp only [isEmptyValue] at h
        simp [h]
    by_cases hr : u ≤ 2 ^ 31 - 1
    · refine ⟨kindInt32, u32le (u % 2 ^ 32), fun b => ?_⟩
      rw [show encodeValue (f + 1) name fs (some (.vUint u)) b =
            encodeUint name fs u b from rfl]
      unfold encodeUint
      simp only [hcond]
      rw [if_neg (by simp), if_neg (by omega), if_pos hr]
      simp [writeUint32, writeKindName, writeByte, writeCString, kindInt32]
    · refine ⟨kindInt64, u64le (u % 2 ^ 64), fun b => ?_⟩
      rw [show encodeValue (f + 1) name fs (some (.vUint u)) b =
            encodeUint name fs u b from rfl]
      unfold encodeUint
      simp only [hcond]
      rw [if_neg (by simp), if_neg (by omega), if_neg hr]
      simp [writeUint64, writeKindName, writeByte, writeCString, kindInt64]
  | vUint64 u =>
    simp only [scalarC6, decide_eq_true_eq] at hs
    have hcond : (u == 0 && fs.omitEmpty) = false := by
      rcases hno with h | h
      · simp [h]
      · simp only [isEmptyValue] at h
        simp [h]
    refine ⟨kindInt64, u64le (u % 2 ^ 64), fun b => ?_⟩
    rw [show encodeValue (f + 1) name fs (some (.vUint64 u)) b =
          encodeUint64 name fs u b from rfl]
    unfold encodeUint64
    simp only [hcond]
    rw [if_neg (by simp), if_neg (by omega)]
    simp [writeUint64, writeKindName, writeByte, writeCString, kindInt64]
  | vString s =>
    have hcond : (s == "" && fs.omitEmpty) = false := by
      rcases hno with h | h
      · simp [h]
      · simp only [isEmptyValue] at h
        simp [h]
    refine ⟨kindString, u32le ((strB s).length + 1) ++ strB s ++ [0], fun b => ?_⟩
    rw [show encodeValue (f + 1) name fs (some (.vString s)) b =
          .ok (encodeString kindString name fs s b) from rfl]
    unfold encodeString
    simp only [hcond]
    simp [writeCString, writeUint32, writeKindName, writeByte, kindString]
  | vTime sec nsec =>
    have hcond : (timeIsZero sec nsec && fs.omitEmpty) = false := by
      rcases hno with h | h
      · simp [h]
      · simp only [isEmptyValue] at h
        simp [h]
    refine ⟨kindDateTime, u64le (intToU64 (msFromTime sec nsec)), fun b => ?_⟩
    rw [show encodeValue (f + 1) name fs (some (.vTime sec nsec)) b =
          .ok (encodeTime name fs sec nsec b) from rfl]
    unfold encodeTime
    simp only [hcond]
    simp [writeUint64, writeKindName, writeByte, writeCString, kindDateTime]
  | vPtr p => simp [scalarC6] at hs
  | vMapNil => simp [scalarC6] at hs
  | vMap es => simp [scalarC6] at hs
  | vStruct tn t vs => simp [scalarC6] at hs
  | vUnsupported tn => simp [scalarC6] at hs

/-- Encoding the one-field omit-if-empty struct when the field writes
nothing yields the empty document. -/
lemma encode_single_skip (f : Nat) (name : String) (v : GoValue)
    (hv : encodeValue (f + 2) name ⟨name, [0], true⟩ (some v) [0, 0, 0, 0] =
      .ok [0, 0, 0, 0]) :
    Encode (f + 2) [] (some (.vStruct "S" [.plain name ",omitempty" true] [v])) =
      .ret (some (docBytes [])) none := by
  simp [Encode, writeStructWith, structSpecForType, compileStructSpec, parseFieldTag_omit,
    lookupA, mapInsert, next4, structLoopStep, encStep, fieldByIndex, hv, frame_empty]

/-- Encoding the one-field omit-if-empty struct when the field writes an
element yields the document holding exactly that element. -/
lemma encode_single_written (f : Nat) (name : String) (v : GoValue) (kb : Nat)
    (payload : List Nat)
    (hv : encodeValue (f + 2) name ⟨name, [0], true⟩ (some v) [0, 0, 0, 0] =
      .ok ([0, 0, 0, 0] ++ [kb] ++ strB name ++ [0] ++ payload)) :
    Encode (f + 2) [] (some (.vStruct "S" [.plain name ",omitempty" true] [v])) =
      .ret (some (docBytes ([kb] ++ strB name ++ [0] ++ payload))) none := by
  simp [Encode, writeStructWith, structSpecForType, compileStructSpec, parseFieldTag_omit,
    lookupA, mapInsert, next4, structLoopStep, encStep, fieldByIndex, hv, frame_nil]

/-- C6 counterexample: the claim says every non-zero value in an
omit-if-empty field produces a document containing that field's element.
A uint64 field holding the non-zero value 2^63 refutes it: the element
encoder aborts, the whole Encode call returns (nil, error), and no
document containing the element exists. -/
theorem C6_counterexample :
    Encode 2 []
        (some (.vStruct "S" [.plain "f" ",omitempty" true] [.vUint64 9223372036854775808])) =
      .ret none (some (.strError "bson: uint64 value does not fit in int64")) ∧
    (9223372036854775808 : Nat) ≠ 0 :=
  ⟨rfl, by decide⟩

/-- C6 amended: for a struct field flagged omit-if-empty, encoding a value
holding the field type's zero value (false / 0 / empty string / absent
pointer / zero time) yields a document with no element for the field, and
encoding a non-zero value yields a document containing the field's element
(kind byte, name, payload) — except that an unsigned value beyond the
signed 64-bit range aborts the whole Encode call with an error, producing
no document at all; a non-nil pointer field encodes its referent, so its
element is present whatever the referent's scalar value. -/
theorem C6_corrected :
    (∀ (f : Nat) (name : String) (v : GoValue), scalarC6 v = true → isEmptyValue v = true →
      Encode (f + 2) [] (some (.vStruct "S" [.plain name ",omitempty" true] [v])) =
        .ret (some (docBytes [])) none) ∧
    (∀ (f : Nat) (name : String) (v : GoValue), scalarC6 v = true → isEmptyValue v = false →
      ∃ kb payload,
        Encode (f + 2) [] (some (.vStruct "S" [.plain name ",omitempty" true] [v])) =
          .ret (some (docBytes ([kb] ++ strB name ++ [0] ++ payload))) none) ∧
    (∀ (f : Nat) (name : String),
      Encode (f + 2) [] (some (.vStruct "S" [.plain name ",omitempty" true] [.vPtr none])) =
        .ret (some (docBytes [])) none) ∧
    (∀ (f : Nat) (name : String) (w : GoValue), scalarC6 w = true →
      ∃ kb payload,
        Encode (f + 2) []
            (some (.vStruct "S" [.plain name ",omitempty" true] [.vPtr (some w)])) =
          .ret (some (docBytes ([kb] ++ strB name ++ [0] ++ payload))) none) := by
  refine ⟨?_, ?_, ?_, ?_⟩
  · intro f name v hs he
    exact encode_single_skip f name v (encodeValue_skip (f + 1) name v _ hs he)
  · intro f name v hs he
    obtain ⟨kb, payload, hv⟩ := encodeValue_written (f + 1) name v ⟨name, [0], true⟩ hs
      (Or.inr he)
    exact ⟨kb, payload, encode_single_written f name v kb payload (hv _)⟩
  · intro f name
    exact encode_single_skip f name (.vPtr none) rfl
  · intro f name w hs
    obtain ⟨kb, payload, hv⟩ := encodeValue_written f name w defaultFieldSpec hs
      (Or.inl rfl)
    refine ⟨kb, payload, encode_single_written f name (.vPtr (some w)) kb payload ?_⟩
    rw [show encodeValue (f + 2) name ⟨name, [0], true⟩ (some (.vPtr (some w))) [0, 0, 0, 0] =
          encodeValue (f + 1) name defaultFieldSpec (some w) [0, 0, 0, 0] from rfl]
    exact hv _

/-- C6 witness: the amended omit-if-empty behaviour applied at concrete
fields — a zero bool is absent, a non-zero int is present, a nil pointer
is absent, and a pointer to a string is present. -/
theorem C6_corrected_witness :
    Encode 2 [] (some (.vStruct "S" [.plain "f" ",omitempty" true] [.vBool false])) =
      .ret (some (docBytes [])) none ∧
    (∃ kb payload,
      Encode 2 [] (some (.vStruct "S" [.plain "f" ",omitempty" true] [.vInt 7])) =
        .ret (some (docBytes ([kb] ++ strB "f" ++ [0] ++ payload))) none) ∧
    Encode 2 [] (some (.vStruct "S" [.plain "f" ",omitempty" true] [.vPtr none])) =
      .ret (some (docBytes [])) none ∧
    (∃ kb payload,
      Encode 2 []
          (some (.vStruct "S" [.plain "f" ",omitempty" true] [.vPtr (some (.vString "x"))])) =
        .ret (some (docBytes ([kb] ++ strB "f" ++ [0] ++ payload))) none) :=
  ⟨C6_corrected.1 0 "f" (.vBool false) (by decide) (by decide),
   C6_corrected.2.1 0 "f" (.vInt 7) (by decide) (by decide),
   C6_corrected.2.2.1 0 "f",
   C6_corrected.2.2.2 0 "f" (.vString "x") (by decide)⟩

end GoMongo
